import Mathlib

/-!
Verification of the `sorbet-color` crate (color models, conversions, and CSS
notation parsing/formatting).

The Rust code is shallowly embedded: `f64` channel values are modelled as
exact rationals (`ℚ`), machine bytes as `ℕ`, strings as `List Char`, and
fallible operations as `Option`/`Except`.  One claim concerns the bit-level
identity of `f64` values (equality versus hashing); for that claim a separate
bit-pattern model of IEEE-754 binary64 is used.
-/

namespace SorbetColor

/-! ## Color model structures (src/sorbet-color/src/types/*.rs)

Each Rust struct has named `f64` channels; here each channel is a rational. -/

/-- Embeds `struct Rgb { r, g, b: f64 }` from rgb.rs. -/
structure Rgb where
  r : ℚ
  g : ℚ
  b : ℚ
  deriving DecidableEq

/-- Embeds `struct Rgba { r, g, b, alpha: f64 }` from rgba.rs. -/
structure Rgba where
  r : ℚ
  g : ℚ
  b : ℚ
  alpha : ℚ
  deriving DecidableEq

/-- Embeds `struct Hsv { h, s, v: f64 }` from hsv.rs. -/
structure Hsv where
  h : ℚ
  s : ℚ
  v : ℚ
  deriving DecidableEq

/-- Embeds `struct Hsva { h, s, v, alpha: f64 }` from hsva.rs. -/
structure Hsva where
  h : ℚ
  s : ℚ
  v : ℚ
  alpha : ℚ
  deriving DecidableEq

/-- Embeds `struct Hsl { h, s, l: f64 }` from hsl.rs. -/
structure Hsl where
  h : ℚ
  s : ℚ
  l : ℚ
  deriving DecidableEq

/-- Embeds `struct Hsla { h, s, l, alpha: f64 }` from hsla.rs. -/
structure Hsla where
  h : ℚ
  s : ℚ
  l : ℚ
  alpha : ℚ
  deriving DecidableEq

/-! ## Numeric helpers mirroring Rust `f64` primitives (exact-rational model) -/

/-- Truncation toward zero, as Rust `f64` to-integer truncation. -/
def ratTrunc (q : ℚ) : ℤ :=
  if 0 ≤ q then ⌊q⌋ else ⌈q⌉

/-- Rust's `%` on `f64`: remainder with the sign of the dividend,
`a - b * trunc(a / b)`. -/
def rustRem (a b : ℚ) : ℚ :=
  a - b * (ratTrunc (a / b) : ℚ)

/-- Rust's `f64::round`: round half away from zero. -/
def rustRound (q : ℚ) : ℤ :=
  if 0 ≤ q then ⌊q + 1 / 2⌋ else ⌈q - 1 / 2⌉

/-- Rust's `as u8` cast on an `f64`: saturating conversion (after rounding the
value is clamped into `0..=255`; the NaN-to-0 case has no rational analogue). -/
def f64AsU8 (q : ℚ) : ℕ :=
  (max 0 (min 255 (rustRound q))).toNat

/-! ## Model-to-model conversions (the `From` impls in types/*.rs) -/

/-- Embeds the helper `fn neighboring(c, x, h1) -> (f64, f64, f64)` of rgb.rs. -/
def neighboring (c x h1 : ℚ) : ℚ × ℚ × ℚ :=
  if 0 ≤ h1 ∧ h1 < 1 then (c, x, 0)
  else if 1 ≤ h1 ∧ h1 < 2 then (x, c, 0)
  else if 2 ≤ h1 ∧ h1 < 3 then (0, c, x)
  else if 3 ≤ h1 ∧ h1 < 4 then (0, x, c)
  else if 4 ≤ h1 ∧ h1 < 5 then (x, 0, c)
  else if 5 ≤ h1 ∧ h1 < 6 then (c, 0, x)
  else (0, 0, 0)

/-- Embeds `impl From<Rgb> for Hsv` (rgb → hsv via max/min/chroma). -/
def Hsv.fromRgb (other : Rgb) : Hsv :=
  let xmax := max other.r (max other.g other.b)
  let xmin := min other.r (min other.g other.b)
  let c := xmax - xmin
  let h0 : ℚ :=
    if c = 0 then 0
    else if xmax = other.r then 60 * ((other.g - other.b) / c)
    else if xmax = other.g then 60 * ((other.b - other.r) / c + 2)
    else 60 * ((other.r - other.g) / c + 4)
  let h := if h0 < 0 then h0 + 360 else h0
  let s := if xmax = 0 then 0 else c / xmax
  ⟨h, s, xmax⟩

/-- Embeds `impl From<Rgb> for Hsl`. -/
def Hsl.fromRgb (other : Rgb) : Hsl :=
  let xmax := max other.r (max other.g other.b)
  let xmin := min other.r (min other.g other.b)
  let c := xmax - xmin
  let h0 : ℚ :=
    if c = 0 then 0
    else if xmax = other.r then 60 * ((other.g - other.b) / c)
    else if xmax = other.g then 60 * ((other.b - other.r) / c + 2)
    else 60 * ((other.r - other.g) / c + 4)
  let h := if h0 < 0 then h0 + 360 else h0
  let l := (xmax + xmin) / 2
  let s := if l = 0 ∨ l = 1 then 0 else c / (1 - |2 * xmax - c - 1|)
  ⟨h, s, l⟩

/-- Embeds `impl From<Hsl> for Hsv` (hsl → hsv closed-form remapping). -/
def Hsv.fromHsl (other : Hsl) : Hsv :=
  let v := other.l + other.s * min other.l (1 - other.l)
  let sv := if v = 0 then 0 else 2 * (1 - other.l / v)
  ⟨other.h, sv, v⟩

/-- Embeds `impl From<Hsv> for Hsl`. -/
def Hsl.fromHsv (other : Hsv) : Hsl :=
  let l := other.v * (1 - other.s / 2)
  let sl := if l = 0 ∨ l = 1 then 0 else 2 * (1 - l / other.v)
  ⟨other.h, sl, l⟩

/-- Embeds `impl From<Hsv> for Rgb`. -/
def Rgb.fromHsv (other : Hsv) : Rgb :=
  let c := other.v * other.s
  let h1 := other.h / 60
  let x := c * (1 - |rustRem h1 2 - 1|)
  let rgb1 := neighboring c x h1
  let m := other.v - c
  ⟨rgb1.1 + m, rgb1.2.1 + m, rgb1.2.2 + m⟩

/-- Embeds `impl From<Hsl> for Rgb`. -/
def Rgb.fromHsl (other : Hsl) : Rgb :=
  let c := (1 - |2 * other.l - 1|) * other.s
  let h1 := other.h / 60
  let x := c * (1 - |rustRem h1 2 - 1|)
  let rgb1 := neighboring c x h1
  let m := other.l - c / 2
  ⟨rgb1.1 + m, rgb1.2.1 + m, rgb1.2.2 + m⟩

/-- Embeds `impl From<Rgba> for Rgb` (drop alpha). -/
def Rgb.fromRgba (other : Rgba) : Rgb :=
  ⟨other.r, other.g, other.b⟩

/-- Embeds `impl From<Hsva> for Hsv` (drop alpha). -/
def Hsv.fromHsva (other : Hsva) : Hsv :=
  ⟨other.h, other.s, other.v⟩

/-- Embeds `impl From<Hsla> for Hsl` (drop alpha). -/
def Hsl.fromHsla (other : Hsla) : Hsl :=
  ⟨other.h, other.s, other.l⟩

/-- Embeds `impl From<Hsva> for Rgb` (via `Hsv`). -/
def Rgb.fromHsva (other : Hsva) : Rgb :=
  Rgb.fromHsv (Hsv.fromHsva other)

/-- Embeds `impl From<Hsla> for Rgb` (via `Hsl`). -/
def Rgb.fromHsla (other : Hsla) : Rgb :=
  Rgb.fromHsl (Hsl.fromHsla other)

/-- Embeds `impl From<Rgba> for Hsv` (via `Rgb`). -/
def Hsv.fromRgba (other : Rgba) : Hsv :=
  Hsv.fromRgb (Rgb.fromRgba other)

/-- Embeds `impl From<Hsla> for Hsv` (via `Hsl`). -/
def Hsv.fromHsla (other : Hsla) : Hsv :=
  Hsv.fromHsl (Hsl.fromHsla other)

/-- Embeds `impl From<Rgba> for Hsl` (via `Rgb`). -/
def Hsl.fromRgba (other : Rgba) : Hsl :=
  Hsl.fromRgb (Rgb.fromRgba other)

/-- Embeds `impl From<Hsva> for Hsl` (via `Hsv`). -/
def Hsl.fromHsva (other : Hsva) : Hsl :=
  Hsl.fromHsv (Hsv.fromHsva other)

/-- Embeds `impl From<Rgb> for Rgba` (alpha defaults to `1.0`). -/
def Rgba.fromRgb (other : Rgb) : Rgba :=
  ⟨other.r, other.g, other.b, 1⟩

/-- Embeds `impl From<Hsv> for Rgba` (via `Rgb`). -/
def Rgba.fromHsv (other : Hsv) : Rgba :=
  Rgba.fromRgb (Rgb.fromHsv other)

/-- Embeds `impl From<Hsl> for Rgba` (via `Rgb`). -/
def Rgba.fromHsl (other : Hsl) : Rgba :=
  Rgba.fromRgb (Rgb.fromHsl other)

/-- Embeds `impl From<Hsva> for Rgba` (keeps the source alpha). -/
def Rgba.fromHsva (other : Hsva) : Rgba :=
  let rgb := Rgb.fromHsva other
  ⟨rgb.r, rgb.g, rgb.b, other.alpha⟩

/-- Embeds `impl From<Hsla> for Rgba` (keeps the source alpha). -/
def Rgba.fromHsla (other : Hsla) : Rgba :=
  let rgb := Rgb.fromHsla other
  ⟨rgb.r, rgb.g, rgb.b, other.alpha⟩

/-- Embeds `impl From<Hsv> for Hsva` (alpha defaults to `1.0`). -/
def Hsva.fromHsv (other : Hsv) : Hsva :=
  ⟨other.h, other.s, other.v, 1⟩

/-- Embeds `impl From<Rgb> for Hsva` (via `Hsv`). -/
def Hsva.fromRgb (other : Rgb) : Hsva :=
  Hsva.fromHsv (Hsv.fromRgb other)

/-- Embeds `impl From<Hsl> for Hsva` (via `Hsv`). -/
def Hsva.fromHsl (other : Hsl) : Hsva :=
  Hsva.fromHsv (Hsv.fromHsl other)

/-- Embeds `impl From<Rgba> for Hsva` (keeps the source alpha). -/
def Hsva.fromRgba (other : Rgba) : Hsva :=
  let hsv := Hsv.fromRgba other
  ⟨hsv.h, hsv.s, hsv.v, other.alpha⟩

/-- Embeds `impl From<Hsla> for Hsva` (keeps the source alpha). -/
def Hsva.fromHsla (other : Hsla) : Hsva :=
  let hsv := Hsv.fromHsla other
  ⟨hsv.h, hsv.s, hsv.v, other.alpha⟩

/-- Embeds `impl From<Hsl> for Hsla` (alpha defaults to `1.0`). -/
def Hsla.fromHsl (other : Hsl) : Hsla :=
  ⟨other.h, other.s, other.l, 1⟩

/-- Embeds `impl From<Rgba> for Hsla` (keeps the source alpha). -/
def Hsla.fromRgba (other : Rgba) : Hsla :=
  let hsl := Hsl.fromRgba other
  ⟨hsl.h, hsl.s, hsl.l, other.alpha⟩

/-- Embeds `impl From<Hsva> for Hsla` (keeps the source alpha). -/
def Hsla.fromHsva (other : Hsva) : Hsla :=
  let hsl := Hsl.fromHsva other
  ⟨hsl.h, hsl.s, hsl.l, other.alpha⟩

/-- Embeds `impl From<Rgb> for Hsla` (via `Rgba`). -/
def Hsla.fromRgb (other : Rgb) : Hsla :=
  Hsla.fromRgba (Rgba.fromRgb other)

/-- Embeds `impl From<Hsv> for Hsla` (via `Hsva`). -/
def Hsla.fromHsv (other : Hsv) : Hsla :=
  Hsla.fromHsva (Hsva.fromHsv other)

/-! ## Byte-array, packed-integer and hex conversions (rgb.rs, rgba.rs) -/

/-- Embeds `impl From<[u8; 3]> for Rgb`: each byte divided by 255. -/
def Rgb.fromBytes (r g b : ℕ) : Rgb :=
  ⟨(r : ℚ) / 255, (g : ℚ) / 255, (b : ℚ) / 255⟩

/-- Embeds `impl From<Rgb> for [u8; 3]`: each channel times 255, rounded,
cast to a byte. -/
def Rgb.toBytes (color : Rgb) : ℕ × ℕ × ℕ :=
  (f64AsU8 (color.r * 255), f64AsU8 (color.g * 255), f64AsU8 (color.b * 255))

/-- Embeds `impl From<Rgb> for u32`: bytes packed `(r << 24) | (g << 16) | (b << 8)`
(the shifted bytes occupy disjoint bit ranges, so `|` is addition). -/
def Rgb.toU32 (color : Rgb) : ℕ :=
  (color.toBytes.1 % 256) * 2 ^ 24 + (color.toBytes.2.1 % 256) * 2 ^ 16 +
    (color.toBytes.2.2 % 256) * 2 ^ 8

/-- Uppercase hexadecimal digit character for a value below 16. -/
def hexUpperChar (n : ℕ) : Char :=
  Char.ofNat (if n < 10 then 48 + n else 55 + n)

/-- Embeds `impl Display for Rgb`: `write!("#{:06X}", u32::from(color) >> 8)`.
The packed value shifted right by 8 is below `2^24`, so the width is always
exactly six digits. -/
def Rgb.display (color : Rgb) : List Char :=
  let v := color.toU32 / 2 ^ 8
  ['#', hexUpperChar (v / 16 ^ 5 % 16), hexUpperChar (v / 16 ^ 4 % 16),
    hexUpperChar (v / 16 ^ 3 % 16), hexUpperChar (v / 16 ^ 2 % 16),
    hexUpperChar (v / 16 % 16), hexUpperChar (v % 16)]

/-! ## Array conversions for Hsla (hsla.rs) -/

/-- Embeds `impl From<[f64; 4]> for Hsla` exactly as written in hsla.rs:
the source assigns `h: array[0], l: array[1], s: array[2], alpha: array[3]`. -/
def Hsla.fromArray (array : ℚ × ℚ × ℚ × ℚ) : Hsla :=
  { h := array.1, l := array.2.1, s := array.2.2.1, alpha := array.2.2.2 }

/-- Embeds `impl From<Hsla> for [f64; 4]`: `[h, s, l, alpha]`. -/
def Hsla.toArray (color : Hsla) : ℚ × ℚ × ℚ × ℚ :=
  (color.h, color.s, color.l, color.alpha)


/-! ## String utilities (Rust `str` operations over `List Char`) -/

/-- Rust `str::split_once(sep)`: split at the first occurrence of `sep`. -/
def splitOnceChar (sep : Char) : List Char → Option (List Char × List Char)
  | [] => none
  | c :: cs =>
    if c = sep then some ([], cs)
    else
      match splitOnceChar sep cs with
      | none => none
      | some (pre, post) => some (c :: pre, post)

/-- Rust `str::strip_suffix(sep)` for a single character. -/
def chopSuffix (sep : Char) (cs : List Char) : Option (List Char) :=
  match cs.getLast? with
  | some c => if c = sep then some cs.dropLast else none
  | none => none

/-- Value of a digit-only character list read in base 10. -/
def natOfDigits (cs : List Char) : ℕ :=
  cs.foldl (fun a c => 10 * a + (c.toNat - 48)) 0

/-- Embeds the decimal fragment of Rust's `f64::from_str` (`digits`,
`digits.digits`, `digits.`, `.digits`); the exponent, `inf` and `nan` forms
are never produced by this crate's inputs and are not modelled. The parsed
value is exact (rational model of `f64`). -/
def parseUnsignedDec (cs : List Char) : Option ℚ :=
  match splitOnceChar '.' cs with
  | none =>
    if cs ≠ [] ∧ cs.all Char.isDigit then some (natOfDigits cs : ℚ) else none
  | some (ip, fp) =>
    if (ip ≠ [] ∨ fp ≠ []) ∧ ip.all Char.isDigit ∧ fp.all Char.isDigit then
      some ((natOfDigits ip : ℚ) + (natOfDigits fp : ℚ) / 10 ^ fp.length)
    else none

/-- Signed decimal parse modelling Rust's `f64::from_str` on this crate's
numeric notation. -/
def parseF64 (cs : List Char) : Option ℚ :=
  match cs with
  | '-' :: rest => (parseUnsignedDec rest).map Neg.neg
  | '+' :: rest => parseUnsignedDec rest
  | _ => parseUnsignedDec cs

/-! ## The CSS notation layer (src/sorbet-color/src/css.rs) -/

/-- Embeds `enum Error` of css.rs. -/
inductive CssError where
  | invalidHexLength
  | invalidHexChars
  | missingCssParens
  | invalidCssFloat
  | invalidCssPercent
  | invalidCssParams
  | wrongCssFormat
  | unknownCssFormat
  deriving DecidableEq

/-- Embeds `enum CssNumber` of css.rs: a `%`-suffixed value stored divided by
100, or a bare float stored as-is. -/
inductive CssNumber where
  | percent (value : ℚ)
  | float (value : ℚ)
  deriving DecidableEq

/-- Embeds `enum CssColorType` of css.rs. -/
inductive CssColorType where
  | rgb
  | rgba
  | hsv
  | hsva
  | hsl
  | hsla
  deriving DecidableEq

/-- Embeds `struct CssColorNotation` of css.rs: a format tag and the parsed
numeric entries. -/
structure CssColorNotation where
  format : CssColorType
  values : List CssNumber
  deriving DecidableEq

/-- Embeds `impl FromStr for CssNumber`: strip a trailing `%` and divide by
100, or parse as a bare float. -/
def CssNumber.fromStr (cs : List Char) : Except CssError CssNumber :=
  if cs.getLast? = some '%' then
    match parseF64 cs.dropLast with
    | some q => .ok (.percent (q / 100))
    | none => .error .invalidCssPercent
  else
    match parseF64 cs with
    | some q => .ok (.float q)
    | none => .error .invalidCssFloat

/-- Embeds strum's snake-case `EnumString` for `CssColorType`. -/
def CssColorType.fromStr (cs : List Char) : Option CssColorType :=
  if cs = "rgb".toList then some .rgb
  else if cs = "rgba".toList then some .rgba
  else if cs = "hsv".toList then some .hsv
  else if cs = "hsva".toList then some .hsva
  else if cs = "hsl".toList then some .hsl
  else if cs = "hsla".toList then some .hsla
  else none

/-- Number of values the format requires, inlined in the source's arity check
(`Rgb | Hsv | Hsl => 3, Rgba | Hsva | Hsla => 4`). -/
def CssColorType.valueCount : CssColorType → ℕ
  | .rgb | .hsv | .hsl => 3
  | .rgba | .hsva | .hsla => 4

/-- Embeds `impl FromStr for CssColorNotation`: strip spaces, split at the
first `(`, strip the trailing `)`, parse the format tag, split the interior
on `,`, parse each segment as a `CssNumber`, and enforce the arity. -/
def CssColorNotation.fromStr (input : List Char) : Except CssError CssColorNotation := do
  let s := input.filter (fun c => c ≠ ' ')
  match splitOnceChar '(' s with
  | none => throw .missingCssParens
  | some (fmt, rest) =>
    match chopSuffix ')' rest with
    | none => throw .missingCssParens
    | some vals =>
      match CssColorType.fromStr fmt with
      | none => throw .unknownCssFormat
      | some format =>
        let values ← (vals.splitOn ',').mapM CssNumber.fromStr
        if values.length ≠ format.valueCount then throw .invalidCssParams
        else return ⟨format, values⟩

/-- Embeds `fn css_number_to_rgb_channel`: percent as-is, float divided
by 255. -/
def css_number_to_rgb_channel : CssNumber → ℚ
  | .percent p => p
  | .float f => f / 255

/-- Embeds `fn css_number_to_float`: percent as-is, float as-is. -/
def css_number_to_float : CssNumber → ℚ
  | .percent p => p
  | .float f => f

/-! ## The nice-string formatter (css.rs `float_to_nice_string`) -/

/-- Round half to even, the rounding of Rust's `format!` precision handling
(no tie arises at any input considered here). -/
def roundHalfEven (q : ℚ) : ℤ :=
  let f := ⌊q⌋
  if q - f < 1 / 2 then f
  else if 1 / 2 < q - f then f + 1
  else if f % 2 = 0 then f else f + 1

/-- Digit characters of a natural number, most significant first (helper for
rendering; fuel recursion keeps it kernel-reducible). -/
def natCharsAux : ℕ → ℕ → List Char
  | 0, _ => []
  | fuel + 1, n =>
    if n = 0 then [] else natCharsAux fuel (n / 10) ++ [Char.ofNat (48 + n % 10)]

/-- Decimal rendering of a natural number. -/
def natChars (n : ℕ) : List Char :=
  if n = 0 then ['0'] else natCharsAux (n + 1) n

/-- Drop trailing occurrences of a character (Rust `trim_end_matches`). -/
def dropTrailing (c : Char) (cs : List Char) : List Char :=
  (cs.reverse.dropWhile (fun x => x = c)).reverse

/-- Embeds `fn float_to_nice_string` on nonnegative magnitudes: render with
`"{:.3}"` (three decimal digits), then trim trailing `'0'`s, then a trailing
`'.'`. -/
def floatToNiceAbs (n : ℕ) : List Char :=
  let ip := n / 1000
  let fp := n % 1000
  let rendered := natChars ip ++
    ['.', Char.ofNat (48 + fp / 100), Char.ofNat (48 + fp / 10 % 10),
      Char.ofNat (48 + fp % 10)]
  dropTrailing '.' (dropTrailing '0' rendered)

/-- Embeds `fn float_to_nice_string` over the rational model: round the value
to three decimals, render, and trim as the source does. -/
def float_to_nice_string (q : ℚ) : List Char :=
  let m := roundHalfEven (q * 1000)
  if m < 0 then '-' :: floatToNiceAbs m.natAbs else floatToNiceAbs m.natAbs

/-! ## Rendering of notation values (css.rs `Display` impls) -/

/-- Embeds strum's snake-case `Display` for `CssColorType`. -/
def CssColorType.render : CssColorType → List Char
  | .rgb => "rgb".toList
  | .rgba => "rgba".toList
  | .hsv => "hsv".toList
  | .hsva => "hsva".toList
  | .hsl => "hsl".toList
  | .hsla => "hsla".toList

/-- Embeds `impl Display for CssNumber`: percents are multiplied by 100 and
suffixed `%`, floats render directly; both via `float_to_nice_string`. -/
def CssNumber.render : CssNumber → List Char
  | .percent p => float_to_nice_string (p * 100) ++ ['%']
  | .float f => float_to_nice_string f

/-- Embeds `impl Display for CssColorNotation`:
`format(v0, v1, ...)` with `", "`-joined values. -/
def CssColorNotation.render (n : CssColorNotation) : List Char :=
  n.format.render ++ ['('] ++
    List.intercalate ", ".toList (n.values.map CssNumber.render) ++ [')']

/-! ## Model constructors from notation values (types/\*.rs `TryFrom`) -/

/-- Embeds `impl TryFrom<&CssColorNotation> for Hsv` exactly as written in
hsv.rs: slot 0 through `css_number_to_float` then multiplied by `360.0`. -/
def Hsv.tryFromCss (other : CssColorNotation) : Except CssError Hsv :=
  match other.format with
  | .hsv | .hsva => do
    let v0 ← (other.values.get? 0).elim (throw .invalidCssParams) pure
    let v1 ← (other.values.get? 1).elim (throw .invalidCssParams) pure
    let v2 ← (other.values.get? 2).elim (throw .invalidCssParams) pure
    return ⟨css_number_to_float v0 * 360, css_number_to_float v1,
      css_number_to_float v2⟩
  | _ => throw .wrongCssFormat

/-- Embeds `impl TryFrom<&CssColorNotation> for Hsl` exactly as written in
hsl.rs: slot 0 through `css_number_to_float` then multiplied by `360.0`. -/
def Hsl.tryFromCss (other : CssColorNotation) : Except CssError Hsl :=
  match other.format with
  | .hsl | .hsla => do
    let v0 ← (other.values.get? 0).elim (throw .invalidCssParams) pure
    let v1 ← (other.values.get? 1).elim (throw .invalidCssParams) pure
    let v2 ← (other.values.get? 2).elim (throw .invalidCssParams) pure
    return ⟨css_number_to_float v0 * 360, css_number_to_float v1,
      css_number_to_float v2⟩
  | _ => throw .wrongCssFormat

/-- Embeds `impl From<Hsl> for CssColorNotation` exactly as written in
hsl.rs, including its format tag `CssColorType::Hsv`. -/
def Hsl.toCssNotation (other : Hsl) : CssColorNotation :=
  ⟨CssColorType.hsv,
    [CssNumber.float other.h, CssNumber.percent other.s,
      CssNumber.percent other.l]⟩

/-! ## Unchecked hex constructors (rgb.rs / rgba.rs `From<&str>`) -/

/-- Value of an ASCII hex digit (Rust `from_str_radix` digit handling). -/
def hexDigitVal (c : Char) : Option ℕ :=
  if c.isDigit then some (c.toNat - 48)
  else if 97 ≤ c.toNat ∧ c.toNat ≤ 102 then some (c.toNat - 87)
  else if 65 ≤ c.toNat ∧ c.toNat ≤ 70 then some (c.toNat - 55)
  else none

/-- Byte decoded from the two hex digits at positions `i, i+1`
(`u8::from_str_radix(&s[i..i+2], 16)`); `none` models the source's panic on a
short slice or a non-hex character. -/
def hexPairAt (cs : List Char) (i : ℕ) : Option ℕ :=
  match cs.drop i with
  | c1 :: c2 :: _ => do
    let h1 ← hexDigitVal c1
    let h2 ← hexDigitVal c2
    some (16 * h1 + h2)
  | _ => none

/-- Embeds `impl From<&str> for Rgb`: strip an optional `#`, decode three hex
byte pairs, divide each by 255 (`none` models the panic path). -/
def Rgb.fromHexStr (cs : List Char) : Option Rgb :=
  let s := if cs.head? = some '#' then cs.drop 1 else cs
  do
    let r ← hexPairAt s 0
    let g ← hexPairAt s 2
    let b ← hexPairAt s 4
    some ⟨(r : ℚ) / 255, (g : ℚ) / 255, (b : ℚ) / 255⟩

/-- Embeds `impl From<&str> for Rgba` exactly as written in rgba.rs: the
`Rgb` channels (already divided by 255) are divided by 255 once more
(`r: r as f64 / 255.0` where `r` was destructured from `Rgb::from(string)`),
and the alpha byte pair at positions 6..8 is divided by 255 once. -/
def Rgba.fromHexStr (cs : List Char) : Option Rgba :=
  let s := if cs.head? = some '#' then cs.drop 1 else cs
  do
    let rgb ← Rgb.fromHexStr s
    let alpha ← hexPairAt s 6
    some ⟨rgb.r / 255, rgb.g / 255, rgb.b / 255, (alpha : ℚ) / 255⟩

/-! ## The top-level constructor of lib.rs (`Color::new` and its private
CSS-number parser) -/

/-- Embeds `enum Error` of lib.rs. -/
inductive LibError where
  | invalidHexLength
  | invalidHexChars
  | missingParenthesis
  | invalidCssInteger
  | invalidCssFloat
  | invalidCssPercentage
  | invalidCssParameters
  | unknownFormat
  deriving DecidableEq

/-- Embeds the private `enum CssNumber` of lib.rs: `Integer(i8)`,
`Float(f64)`, `Percentage(f64)`. -/
inductive LibCssNumber where
  | integer (value : ℤ)
  | float (value : ℚ)
  | percentage (value : ℚ)
  deriving DecidableEq

/-- Signed all-digit integer parse; the value component of Rust
`i8::from_str`. -/
def parseSignedInt (cs : List Char) : Option ℤ :=
  match cs with
  | '-' :: rest =>
    if rest ≠ [] ∧ rest.all Char.isDigit then some (-(natOfDigits rest : ℤ))
    else none
  | '+' :: rest =>
    if rest ≠ [] ∧ rest.all Char.isDigit then some (natOfDigits rest : ℤ)
    else none
  | _ =>
    if cs ≠ [] ∧ cs.all Char.isDigit then some (natOfDigits cs : ℤ) else none

/-- Embeds Rust `i8::from_str`: a signed decimal integer, rejected unless it
fits in `-128..=127`. -/
def parseI8 (cs : List Char) : Option ℤ :=
  match parseSignedInt cs with
  | some z => if -128 ≤ z ∧ z ≤ 127 then some z else none
  | none => none

/-- Embeds `impl FromStr for CssNumber` of lib.rs: `%` means percentage,
a `.` means float, otherwise an `i8` integer. -/
def LibCssNumber.fromStr (cs : List Char) : Except LibError LibCssNumber :=
  if cs.getLast? = some '%' then
    match parseF64 cs.dropLast with
    | some q => .ok (.percentage q)
    | none => .error .invalidCssPercentage
  else if cs.contains '.' then
    match parseF64 cs with
    | some q => .ok (.float q)
    | none => .error .invalidCssFloat
  else
    match parseI8 cs with
    | some z => .ok (.integer z)
    | none => .error .invalidCssInteger

/-- Embeds `CssNumber::to_degrees` of lib.rs. -/
def LibCssNumber.toDegrees : LibCssNumber → ℚ
  | .integer i => (i : ℚ)
  | .float f => f
  | .percentage p => p * 360

/-- Embeds `impl From<CssNumber> for f64` of lib.rs: integers and floats are
divided by 255, percentages by 100. -/
def LibCssNumber.toF64 : LibCssNumber → ℚ
  | .integer i => (i : ℚ) / 255
  | .float f => f / 255
  | .percentage p => p / 100

/-- Embeds `fn parse_css_parts`: strip `(` and `)`, split on `,`, parse each
segment. -/
def parse_css_parts (cs : List Char) : Except LibError (List LibCssNumber) :=
  match cs with
  | '(' :: rest =>
    match chopSuffix ')' rest with
    | some inner => (inner.splitOn ',').mapM LibCssNumber.fromStr
    | none => .error .missingParenthesis
  | _ => .error .missingParenthesis

/-- Rust `f64::clamp(x, lo, hi)` over the rational model. -/
def rustClamp (x lo hi : ℚ) : ℚ :=
  min (max x lo) hi

/-- Embeds `impl TryFrom<&[CssNumber]> for Rgb` of lib.rs (exactly three
values; each channel converted and clamped into `0.0..=1.0`). -/
def Rgb.tryFromParts : List LibCssNumber → Except LibError Rgb
  | [a, b, c] =>
    .ok ⟨rustClamp a.toF64 0 1, rustClamp b.toF64 0 1, rustClamp c.toF64 0 1⟩
  | _ => .error .invalidCssParameters

/-- Embeds `impl TryFrom<&[CssNumber]> for Rgba` of lib.rs. -/
def Rgba.tryFromParts : List LibCssNumber → Except LibError Rgba
  | [a, b, c, d] => do
    let rgb ← Rgb.tryFromParts [a, b, c]
    return ⟨rgb.r, rgb.g, rgb.b, rustClamp d.toF64 0 1⟩
  | _ => .error .invalidCssParameters

/-- Embeds `impl TryFrom<&[CssNumber]> for Hsv` of lib.rs (hue converted via
`to_degrees` and clamped into `0.0..=360.0`). -/
def Hsv.tryFromParts : List LibCssNumber → Except LibError Hsv
  | [a, b, c] =>
    .ok ⟨rustClamp a.toDegrees 0 360, rustClamp b.toF64 0 1, rustClamp c.toF64 0 1⟩
  | _ => .error .invalidCssParameters

/-- Embeds `impl TryFrom<&[CssNumber]> for Hsva` of lib.rs. -/
def Hsva.tryFromParts : List LibCssNumber → Except LibError Hsva
  | [a, b, c, d] => do
    let hsv ← Hsv.tryFromParts [a, b, c]
    return ⟨hsv.h, hsv.s, hsv.v, rustClamp d.toF64 0 1⟩
  | _ => .error .invalidCssParameters

/-- Embeds `impl TryFrom<&[CssNumber]> for Hsl` of lib.rs. -/
def Hsl.tryFromParts : List LibCssNumber → Except LibError Hsl
  | [a, b, c] =>
    .ok ⟨rustClamp a.toDegrees 0 360, rustClamp b.toF64 0 1, rustClamp c.toF64 0 1⟩
  | _ => .error .invalidCssParameters

/-- Embeds `impl TryFrom<&[CssNumber]> for Hsla` of lib.rs. -/
def Hsla.tryFromParts : List LibCssNumber → Except LibError Hsla
  | [a, b, c, d] => do
    let hsl ← Hsl.tryFromParts [a, b, c]
    return ⟨hsl.h, hsl.s, hsl.l, rustClamp d.toF64 0 1⟩
  | _ => .error .invalidCssParameters

/-- ASCII hex-digit test (Rust `u8::is_ascii_hexdigit`). -/
def isHexDigitChar (c : Char) : Bool :=
  c.isDigit || (97 ≤ c.toNat && c.toNat ≤ 102) || (65 ≤ c.toNat && c.toNat ≤ 70)

/-- Embeds `Color::new` of lib.rs instantiated at target type `Rgba`:
lowercase and strip spaces, then try the `#` hex branch, then the format
identifiers in the source's order `rgb, rgba, hsv, hsva, hsl, hsla`
(`strip_prefix` against each in turn), converting the parsed intermediate
color into `Rgba`. In the hex branch the decoder cannot fail (the characters
were just validated), so its `none` case is closed with a default. -/
def colorNewRgba (input : List Char) : Except LibError Rgba :=
  let s := (input.filter (fun c => c ≠ ' ')).map Char.toLower
  match s with
  | '#' :: rest =>
    if ¬ rest.all isHexDigitChar then .error .invalidHexChars
    else if rest.length = 6 then
      .ok (Rgba.fromRgb ((Rgb.fromHexStr rest).getD ⟨0, 0, 0⟩))
    else if rest.length = 8 then
      .ok ((Rgba.fromHexStr rest).getD ⟨0, 0, 0, 0⟩)
    else .error .invalidHexLength
  | _ =>
    if s.take 3 = "rgb".toList then do
      let parts ← parse_css_parts (s.drop 3)
      let c ← Rgb.tryFromParts parts
      return Rgba.fromRgb c
    else if s.take 4 = "rgba".toList then do
      let parts ← parse_css_parts (s.drop 4)
      let c ← Rgba.tryFromParts parts
      return c
    else if s.take 3 = "hsv".toList then do
      let parts ← parse_css_parts (s.drop 3)
      let c ← Hsv.tryFromParts parts
      return Rgba.fromHsv c
    else if s.take 4 = "hsva".toList then do
      let parts ← parse_css_parts (s.drop 4)
      let c ← Hsva.tryFromParts parts
      return Rgba.fromHsva c
    else if s.take 3 = "hsl".toList then do
      let parts ← parse_css_parts (s.drop 3)
      let c ← Hsl.tryFromParts parts
      return Rgba.fromHsl c
    else if s.take 4 = "hsla".toList then do
      let parts ← parse_css_parts (s.drop 4)
      let c ← Hsla.tryFromParts parts
      return Rgba.fromHsla c
    else .error .unknownFormat

/-! ## Bit-pattern model of `f64` for the equality/hashing claim

The derived `PartialEq` of the color structs compares channels with IEEE-754
`==`; the manual `Hash` impls hash `f64::to_bits` of each channel. Here an
`f64` is its 64-bit pattern (a natural below `2^64`) and `f64Interp` gives
its IEEE-754 binary64 semantic value, finite values scaled by `2^1074` so
they are integers. -/

/-- Semantic value of an `f64` bit pattern: NaN, an infinity, or a finite
value times `2^1074`. -/
inductive F64Val where
  | nan
  | posInf
  | negInf
  | fin (z : ℤ)
  deriving DecidableEq

/-- Magnitude (times `2^1074`) encoded by an exponent field and a mantissa
field: subnormal when the exponent field is zero, otherwise normal with the
implicit leading bit. -/
def f64Mag (e m : ℕ) : ℕ :=
  if e = 0 then m else (2 ^ 52 + m) * 2 ^ (e - 1)

/-- IEEE-754 binary64 interpretation of a 64-bit pattern. -/
def f64Interp (bits : ℕ) : F64Val :=
  let s := bits / 2 ^ 63 % 2
  let e := bits / 2 ^ 52 % 2 ^ 11
  let m := bits % 2 ^ 52
  if e = 2047 then
    if m = 0 then (if s = 1 then .negInf else .posInf) else .nan
  else .fin (if s = 1 then -(f64Mag e m : ℤ) else (f64Mag e m : ℤ))

/-- IEEE-754 `==` on bit patterns: equality of semantic values, never true
for NaN. This is what Rust `f64::eq` (and hence the derived `PartialEq` of
the color structs) computes. -/
def f64Beq (x y : ℕ) : Bool :=
  match f64Interp x, f64Interp y with
  | .fin a, .fin b => a == b
  | .posInf, .posInf => true
  | .negInf, .negInf => true
  | _, _ => false

/-- NaN test on a bit pattern. -/
def f64IsNaNBits (bits : ℕ) : Bool :=
  (bits / 2 ^ 52 % 2 ^ 11 == 2047) && (bits % 2 ^ 52 != 0)

/-- Signed-zero test on a bit pattern (everything but the sign bit clear). -/
def f64IsZeroBits (bits : ℕ) : Bool :=
  bits % 2 ^ 63 == 0

/-- An `Rgb` value at the bit level: each channel is an `f64` bit pattern. -/
structure RgbBits where
  r : ℕ
  g : ℕ
  b : ℕ
  deriving DecidableEq

/-- The derived `PartialEq` of `Rgb`: channelwise IEEE-754 `==`. -/
def RgbBits.beq (x y : RgbBits) : Bool :=
  f64Beq x.r y.r && f64Beq x.g y.g && f64Beq x.b y.b

/-- The data fed to the hasher by `impl Hash for Rgb`: `to_bits` of each
channel in order (hashing a bit pattern is the identity in this model). -/
def RgbBits.hashInput (x : RgbBits) : ℕ × ℕ × ℕ :=
  (x.r, x.g, x.b)

/-! ## Helper lemmas about the rounding primitives -/

lemma rustRound_natCast (n : ℕ) : rustRound (n : ℚ) = n := by
  have h0 : (0 : ℚ) ≤ (n : ℚ) := by positivity
  rw [rustRound, if_pos h0]
  have : ((n : ℤ) : ℚ) ≤ (n : ℚ) + 1 / 2 ∧ (n : ℚ) + 1 / 2 < (n : ℤ) + 1 := by
    constructor <;> · push_cast; linarith
  exact Int.floor_eq_iff.mpr ⟨this.1, by push_cast; linarith [this.2]⟩

lemma f64AsU8_natCast (n : ℕ) (h : n ≤ 255) : f64AsU8 (n : ℚ) = n := by
  rw [f64AsU8, rustRound_natCast]
  rw [min_eq_right (by exact_mod_cast h), max_eq_right (Int.natCast_nonneg n)]
  exact Int.toNat_natCast n

lemma div_255_mul_255 (n : ℕ) : ((n : ℚ) / 255) * 255 = n :=
  div_mul_cancel₀ _ (by norm_num)

/-- C8: converting any non-alpha model (`Rgb`, `Hsv`, `Hsl`) into any
alpha-bearing model (`Rgba`, `Hsva`, `Hsla`) yields alpha exactly `1.0`, and
the remaining channels are exactly those of the ordinary non-alpha model
conversion. -/
theorem alpha_default_one (c : Rgb) (v : Hsv) (l : Hsl) :
    Rgba.fromRgb c = ⟨c.r, c.g, c.b, 1⟩ ∧
    Hsva.fromRgb c = ⟨(Hsv.fromRgb c).h, (Hsv.fromRgb c).s, (Hsv.fromRgb c).v, 1⟩ ∧
    Hsla.fromRgb c = ⟨(Hsl.fromRgb c).h, (Hsl.fromRgb c).s, (Hsl.fromRgb c).l, 1⟩ ∧
    Rgba.fromHsv v = ⟨(Rgb.fromHsv v).r, (Rgb.fromHsv v).g, (Rgb.fromHsv v).b, 1⟩ ∧
    Hsva.fromHsv v = ⟨v.h, v.s, v.v, 1⟩ ∧
    Hsla.fromHsv v = ⟨(Hsl.fromHsv v).h, (Hsl.fromHsv v).s, (Hsl.fromHsv v).l, 1⟩ ∧
    Rgba.fromHsl l = ⟨(Rgb.fromHsl l).r, (Rgb.fromHsl l).g, (Rgb.fromHsl l).b, 1⟩ ∧
    Hsva.fromHsl l = ⟨(Hsv.fromHsl l).h, (Hsv.fromHsl l).s, (Hsv.fromHsl l).v, 1⟩ ∧
    Hsla.fromHsl l = ⟨l.h, l.s, l.l, 1⟩ :=
  ⟨rfl, rfl, rfl, rfl, rfl, rfl, rfl, rfl, rfl⟩

/-- C10: the claimed `[f64; 4]` round-trip for `Hsla` fails: the array
constructor assigns `l := array[1]` and `s := array[2]` (swapped relative to
the inverse `[h, s, l, alpha]`), so round-tripping `(0, 1, 2, 3)` produces
`(0, 2, 1, 3)`, not the original array. -/
theorem hsla_array_roundtrip_swaps :
    Hsla.fromArray (0, 1, 2, 3) = ⟨0, 2, 1, 3⟩ ∧
    Hsla.toArray (Hsla.fromArray (0, 1, 2, 3)) = (0, 2, 1, 3) ∧
    Hsla.toArray (Hsla.fromArray (0, 1, 2, 3)) ≠ (0, 1, 2, 3) :=
  ⟨rfl, rfl, by decide⟩

/-- C6: for all bytes `(r, g, b)`, building `Rgb {r/255, g/255, b/255}` and
converting back to a byte array returns exactly `(r, g, b)`, and the rendered
hex string `#RRGGBB` carries exactly the hex digits of the three bytes. -/
theorem rgb_byte_roundtrip (r g b : ℕ) (hr : r ≤ 255) (hg : g ≤ 255)
    (hb : b ≤ 255) :
    Rgb.toBytes (Rgb.fromBytes r g b) = (r, g, b) ∧
    Rgb.display (Rgb.fromBytes r g b) =
      ['#', hexUpperChar (r / 16), hexUpperChar (r % 16), hexUpperChar (g / 16),
        hexUpperChar (g % 16), hexUpperChar (b / 16), hexUpperChar (b % 16)] := by
  have hbytes : Rgb.toBytes (Rgb.fromBytes r g b) = (r, g, b) := by
    show (f64AsU8 ((r : ℚ) / 255 * 255), f64AsU8 ((g : ℚ) / 255 * 255),
      f64AsU8 ((b : ℚ) / 255 * 255)) = (r, g, b)
    rw [div_255_mul_255, div_255_mul_255, div_255_mul_255,
      f64AsU8_natCast r hr, f64AsU8_natCast g hg, f64AsU8_natCast b hb]
  refine ⟨hbytes, ?_⟩
  rw [Rgb.display, Rgb.toU32, hbytes]
  have hv : (r % 256 * 2 ^ 24 + g % 256 * 2 ^ 16 + b % 256 * 2 ^ 8) / 2 ^ 8 =
      r * 65536 + g * 256 + b := by
    have e24 : (2 : ℕ) ^ 24 = 16777216 := by norm_num
    have e16 : (2 : ℕ) ^ 16 = 65536 := by norm_num
    have e8 : (2 : ℕ) ^ 8 = 256 := by norm_num
    rw [e24, e16, e8]; omega
  simp only [hv]
  have h5 : (r * 65536 + g * 256 + b) / 16 ^ 5 % 16 = r / 16 := by
    have : (16 : ℕ) ^ 5 = 1048576 := by norm_num
    rw [this]; omega
  have h4 : (r * 65536 + g * 256 + b) / 16 ^ 4 % 16 = r % 16 := by
    have : (16 : ℕ) ^ 4 = 65536 := by norm_num
    rw [this]; omega
  have h3 : (r * 65536 + g * 256 + b) / 16 ^ 3 % 16 = g / 16 := by
    have : (16 : ℕ) ^ 3 = 4096 := by norm_num
    rw [this]; omega
  have h2 : (r * 65536 + g * 256 + b) / 16 ^ 2 % 16 = g % 16 := by
    have : (16 : ℕ) ^ 2 = 256 := by norm_num
    rw [this]; omega
  have h1 : (r * 65536 + g * 256 + b) / 16 % 16 = b / 16 := by omega
  have h0 : (r * 65536 + g * 256 + b) % 16 = b % 16 := by omega
  rw [h5, h4, h3, h2, h1, h0]

/-- C6 witness: the round-trip theorem instantiated at the bytes
`(18, 52, 231)`. -/
theorem rgb_byte_roundtrip_witness :
    (18 ≤ 255 ∧ 52 ≤ 255 ∧ 231 ≤ 255) ∧
    (Rgb.toBytes (Rgb.fromBytes 18 52 231) = (18, 52, 231) ∧
      Rgb.display (Rgb.fromBytes 18 52 231) =
        ['#', hexUpperChar (18 / 16), hexUpperChar (18 % 16),
          hexUpperChar (52 / 16), hexUpperChar (52 % 16),
          hexUpperChar (231 / 16), hexUpperChar (231 % 16)]) :=
  ⟨⟨by decide, by decide, by decide⟩,
    rgb_byte_roundtrip 18 52 231 (by decide) (by decide) (by decide)⟩
/-- C9: the nice-string formatter's reference values: `99 → "99"`,
`99.9 → "99.9"`, `99.999 → "99.999"`, `99.9994 → "99.999"` (render at three
decimals, trim trailing zeros, then a bare trailing point). -/
theorem float_to_nice_string_examples :
    float_to_nice_string 99 = "99".toList ∧
    float_to_nice_string (999 / 10) = "99.9".toList ∧
    float_to_nice_string (99999 / 1000) = "99.999".toList ∧
    float_to_nice_string (999994 / 10000) = "99.999".toList := by
  have h1 : roundHalfEven ((99 : ℚ) * 1000) = 99000 := by norm_num [roundHalfEven]
  have h2 : roundHalfEven ((999 / 10 : ℚ) * 1000) = 99900 := by
    norm_num [roundHalfEven]
  have h3 : roundHalfEven ((99999 / 1000 : ℚ) * 1000) = 99999 := by
    norm_num [roundHalfEven]
  have h4 : roundHalfEven ((999994 / 10000 : ℚ) * 1000) = 99999 := by
    norm_num [roundHalfEven, Int.floor_eq_iff]
  refine ⟨?_, ?_, ?_, ?_⟩
  · simp only [float_to_nice_string, h1]; decide
  · simp only [float_to_nice_string, h2]; decide
  · simp only [float_to_nice_string, h3]; decide
  · simp only [float_to_nice_string, h4]; decide

/-- C1: the hue slot of `hsv`/`hsl` notation is not read as raw degrees:
`"hsva(360, 30%, 60%, 0.7)"` parses fine (no arity error), but the model
constructors multiply slot 0 by `360.0`, so the resulting hue is `129600.0`,
not `360.0`. -/
theorem hsv_hue_slot_scaled :
    CssColorNotation.fromStr "hsva(360, 30%, 60%, 0.7)".toList =
      .ok ⟨.hsva, [.float 360, .percent (3 / 10), .percent (3 / 5),
        .float (7 / 10)]⟩ ∧
    Hsv.tryFromCss ⟨.hsva, [.float 360, .percent (3 / 10), .percent (3 / 5),
        .float (7 / 10)]⟩ = .ok ⟨129600, 3 / 10, 3 / 5⟩ ∧
    Hsl.tryFromCss ⟨.hsla, [.float 360, .percent (3 / 10), .percent (3 / 5),
        .float (7 / 10)]⟩ = .ok ⟨129600, 3 / 10, 3 / 5⟩ ∧
    (129600 : ℚ) ≠ 360 := by
  refine ⟨?_, ?_, ?_, by norm_num⟩
  · simp [CssColorNotation.fromStr, splitOnceChar, chopSuffix,
      CssColorType.fromStr, CssColorType.valueCount, CssNumber.fromStr,
      parseF64, parseUnsignedDec, natOfDigits, List.splitOn, List.splitOnP,
      List.splitOnP.go, List.mapM, List.mapM.loop, bind, Except.bind, pure,
      Except.pure]
    norm_num
  · simp [Hsv.tryFromCss, css_number_to_float, Option.elim, bind, Except.bind,
      pure, Except.pure]
    norm_num
  · simp [Hsl.tryFromCss, css_number_to_float, Option.elim, bind, Except.bind,
      pure, Except.pure]
    norm_num

/-- C3: formatting an `Hsl` value is not reversible: the produced notation
carries the format tag `Hsv` (its rendering starts with `"hsv("`), and
feeding it back into the `Hsl` constructor yields `WrongCssFormat` instead of
succeeding. -/
theorem hsl_to_css_wrong_tag (c : Hsl) :
    (Hsl.toCssNotation c).format = CssColorType.hsv ∧
    Hsl.tryFromCss (Hsl.toCssNotation c) = .error .wrongCssFormat ∧
    ∃ rest, (Hsl.toCssNotation c).render = "hsv(".toList ++ rest := by
  refine ⟨rfl, rfl, ?_⟩
  refine ⟨List.intercalate ", ".toList
    ((Hsl.toCssNotation c).values.map CssNumber.render) ++ [')'], ?_⟩
  simp [CssColorNotation.render, Hsl.toCssNotation, CssColorType.render]

/-- Every successful parse of CSS functional notation carries exactly the
arity its format requires (the parser rejects any other count). -/
lemma fromStr_ok_length {s : List Char} {n : CssColorNotation}
    (h : CssColorNotation.fromStr s = .ok n) :
    n.values.length = n.format.valueCount := by
  simp only [CssColorNotation.fromStr] at h
  split at h
  · exact absurd h (by simp [throw, throwThe, MonadExceptOf.throw])
  · split at h
    · exact absurd h (by simp [throw, throwThe, MonadExceptOf.throw])
    · split at h
      · exact absurd h (by simp [throw, throwThe, MonadExceptOf.throw])
      · simp only [bind, Except.bind] at h
        split at h
        · exact absurd h (by simp)
        · split at h
          · exact absurd h (by simp [throw, throwThe, MonadExceptOf.throw])
          · simp only [pure, Except.pure, Except.ok.injEq] at h
            subst h
            simp_all

/-- C7: the arity contract of the notation parser: `"rgb(1,2)"` and
`"rgba(1,2,3)"` both fail with `InvalidCssParams`, `"rgb(1,2,3)"` succeeds,
and in general every successfully parsed notation holds exactly 3 values for
`rgb`/`hsv`/`hsl` and exactly 4 for the alpha formats. -/
theorem css_arity_enforced :
    CssColorNotation.fromStr "rgb(1,2)".toList = .error .invalidCssParams ∧
    CssColorNotation.fromStr "rgba(1,2,3)".toList = .error .invalidCssParams ∧
    CssColorNotation.fromStr "rgb(1,2,3)".toList =
      .ok ⟨.rgb, [.float 1, .float 2, .float 3]⟩ ∧
    ∀ (s : List Char) (n : CssColorNotation),
      CssColorNotation.fromStr s = .ok n →
      n.values.length = n.format.valueCount := by
  refine ⟨?_, ?_, ?_, fun s n h => fromStr_ok_length h⟩
  · simp [CssColorNotation.fromStr, splitOnceChar, chopSuffix,
      CssColorType.fromStr, CssColorType.valueCount, CssNumber.fromStr,
      parseF64, parseUnsignedDec, natOfDigits, List.splitOn, List.splitOnP,
      List.splitOnP.go, List.mapM, List.mapM.loop, bind, Except.bind, pure,
      Except.pure, throw, throwThe, MonadExceptOf.throw]
  · simp [CssColorNotation.fromStr, splitOnceChar, chopSuffix,
      CssColorType.fromStr, CssColorType.valueCount, CssNumber.fromStr,
      parseF64, parseUnsignedDec, natOfDigits, List.splitOn, List.splitOnP,
      List.splitOnP.go, List.mapM, List.mapM.loop, bind, Except.bind, pure,
      Except.pure, throw, throwThe, MonadExceptOf.throw]
  · simp [CssColorNotation.fromStr, splitOnceChar, chopSuffix,
      CssColorType.fromStr, CssColorType.valueCount, CssNumber.fromStr,
      parseF64, parseUnsignedDec, natOfDigits, List.splitOn, List.splitOnP,
      List.splitOnP.go, List.mapM, List.mapM.loop, bind, Except.bind, pure,
      Except.pure]

/-- C7 witness: the general arity clause applied to the concrete parse of
`"hsl(7,8,9)"`. -/
theorem css_arity_enforced_witness :
    CssColorNotation.fromStr "hsl(7,8,9)".toList =
      .ok ⟨.hsl, [.float 7, .float 8, .float 9]⟩ ∧
    (⟨.hsl, [.float 7, .float 8, .float 9]⟩ : CssColorNotation).values.length =
      (⟨.hsl, [.float 7, .float 8, .float 9]⟩ : CssColorNotation).format.valueCount := by
  have hp : CssColorNotation.fromStr "hsl(7,8,9)".toList =
      .ok ⟨.hsl, [.float 7, .float 8, .float 9]⟩ := by
    simp [CssColorNotation.fromStr, splitOnceChar, chopSuffix,
      CssColorType.fromStr, CssColorType.valueCount, CssNumber.fromStr,
      parseF64, parseUnsignedDec, natOfDigits, List.splitOn, List.splitOnP,
      List.splitOnP.go, List.mapM, List.mapM.loop, bind, Except.bind, pure,
      Except.pure]
  exact ⟨hp, css_arity_enforced.2.2.2 _ _ hp⟩

/-- C2: `Color::new` targeting `Rgba` fails on
`"rgba(127.5, 120, 95%, 0.3)"`: the `strip_prefix("rgb")` branch is tested
first and consumes the input, leaving `"a(...)"`, which has no leading `(`,
so the result is `Err(MissingParenthesis)`. Moreover even the `Rgba`
slice constructor itself maps the `0.3` alpha float to `0.3 / 255 = 1/850`,
not `0.3`. -/
theorem colorNew_rgba_shadowed :
    colorNewRgba "rgba(127.5, 120, 95%, 0.3)".toList =
      .error .missingParenthesis ∧
    parse_css_parts "(127.5,120,95%,0.3)".toList =
      .ok [.float (255 / 2), .integer 120, .percentage 95, .float (3 / 10)] ∧
    Rgba.tryFromParts
        [.float (255 / 2), .integer 120, .percentage 95, .float (3 / 10)] =
      .ok ⟨1 / 2, 8 / 17, 19 / 20, 1 / 850⟩ ∧
    (1 / 850 : ℚ) ≠ 3 / 10 := by
  refine ⟨?_, ?_, ?_, by norm_num⟩
  · rfl
  · simp [parse_css_parts, chopSuffix, List.splitOn, List.splitOnP,
      List.splitOnP.go, List.mapM, List.mapM.loop, LibCssNumber.fromStr,
      parseF64, parseUnsignedDec, natOfDigits, parseI8, parseSignedInt,
      splitOnceChar, bind, Except.bind, pure, Except.pure]
    norm_num
  · simp [Rgba.tryFromParts, Rgb.tryFromParts, LibCssNumber.toF64, rustClamp,
      bind, Except.bind, pure, Except.pure, min_def, max_def]
    norm_num

/-- C5: the unchecked hex constructor for `Rgba` divides the color channels
by 255 twice: `"#ffffffff"` yields `r = g = b = 1/255` (not `255/255 = 1`),
while the alpha channel and the `Rgb` constructor divide once as claimed. -/
theorem rgba_hex_double_divide :
    Rgba.fromHexStr "#ffffffff".toList =
      some ⟨1 / 255, 1 / 255, 1 / 255, 1⟩ ∧
    Rgb.fromHexStr "#ffffff".toList = some ⟨1, 1, 1⟩ ∧
    (1 / 255 : ℚ) ≠ 1 := by
  refine ⟨?_, ?_, by norm_num⟩
  · simp [Rgba.fromHexStr, Rgb.fromHexStr, hexPairAt, hexDigitVal, bind,
      Option.bind, pure]
  · simp [Rgb.fromHexStr, hexPairAt, hexDigitVal, bind, Option.bind, pure]

/-! ## Lemmas about the bit-level `f64` model -/

lemma f64Mag_lower {e m : ℕ} (he : e ≠ 0) : 2 ^ 52 ≤ f64Mag e m := by
  rw [f64Mag, if_neg he]
  calc (2 : ℕ) ^ 52 ≤ 2 ^ 52 + m := Nat.le_add_right _ _
    _ ≤ (2 ^ 52 + m) * 2 ^ (e - 1) := Nat.le_mul_of_pos_right _ (by positivity)

lemma f64Mag_zero (m : ℕ) : f64Mag 0 m = m := by
  simp [f64Mag]

lemma f64Mag_eq_zero_iff {e m : ℕ} : f64Mag e m = 0 ↔ e = 0 ∧ m = 0 := by
  by_cases he : e = 0
  · subst he; simp [f64Mag]
  · rw [f64Mag, if_neg he]
    have h1 : 0 < (2 ^ 52 + m) * 2 ^ (e - 1) := by positivity
    constructor
    · intro h; omega
    · intro h; exact absurd h.1 he

lemma f64Mag_inj_le {e1 m1 e2 m2 : ℕ} (h1 : m1 < 2 ^ 52) (_h2 : m2 < 2 ^ 52)
    (he1 : e1 ≠ 0) (he2 : e2 ≠ 0) (hle : e1 ≤ e2)
    (heq : f64Mag e1 m1 = f64Mag e2 m2) : e1 = e2 ∧ m1 = m2 := by
  rw [f64Mag, if_neg he1, f64Mag, if_neg he2] at heq
  have hsplit : e2 - 1 = (e1 - 1) + (e2 - e1) := by omega
  rw [hsplit, pow_add] at heq
  have hre : (2 ^ 52 + m2) * (2 ^ (e1 - 1) * 2 ^ (e2 - e1)) =
      ((2 ^ 52 + m2) * 2 ^ (e2 - e1)) * 2 ^ (e1 - 1) := by ring
  rw [hre] at heq
  have hpos : 0 < (2 : ℕ) ^ (e1 - 1) := by positivity
  have key : 2 ^ 52 + m1 = (2 ^ 52 + m2) * 2 ^ (e2 - e1) :=
    Nat.eq_of_mul_eq_mul_right hpos heq
  by_cases hee : e1 = e2
  · subst hee
    simp only [Nat.sub_self, pow_zero, mul_one] at key
    exact ⟨rfl, by omega⟩
  · exfalso
    have hd : 1 ≤ e2 - e1 := by omega
    have h2le : (2 : ℕ) ≤ 2 ^ (e2 - e1) := by
      calc (2 : ℕ) = 2 ^ 1 := (pow_one 2).symm
        _ ≤ 2 ^ (e2 - e1) := Nat.pow_le_pow_right (by norm_num) hd
    have hbig : 2 ^ 52 * 2 ≤ (2 ^ 52 + m2) * 2 ^ (e2 - e1) :=
      Nat.mul_le_mul (Nat.le_add_right _ _) h2le
    have e52 : (2 : ℕ) ^ 52 = 4503599627370496 := by norm_num
    generalize hR : (2 ^ 52 + m2) * 2 ^ (e2 - e1) = R at key hbig
    rw [e52] at key hbig h1
    omega

lemma f64Mag_inj {e1 m1 e2 m2 : ℕ} (h1 : m1 < 2 ^ 52) (h2 : m2 < 2 ^ 52)
    (heq : f64Mag e1 m1 = f64Mag e2 m2) :
    (e1 = e2 ∧ m1 = m2) ∨ (e1 = 0 ∧ m1 = 0 ∧ e2 = 0 ∧ m2 = 0) := by
  by_cases hz : f64Mag e1 m1 = 0
  · obtain ⟨a, b⟩ := f64Mag_eq_zero_iff.mp hz
    obtain ⟨c, d⟩ := f64Mag_eq_zero_iff.mp (heq ▸ hz)
    exact Or.inr ⟨a, b, c, d⟩
  · left
    by_cases he1 : e1 = 0 <;> by_cases he2 : e2 = 0
    · subst he1; subst he2
      rw [f64Mag_zero, f64Mag_zero] at heq
      exact ⟨rfl, heq⟩
    · exfalso
      subst he1
      rw [f64Mag_zero] at heq
      have hge := f64Mag_lower he2 (m := m2)
      rw [← heq] at hge
      exact absurd hge (not_le.mpr h1)
    · exfalso
      subst he2
      rw [f64Mag_zero] at heq
      have hge := f64Mag_lower he1 (m := m1)
      rw [heq] at hge
      exact absurd hge (not_le.mpr h2)
    · rcases le_total e1 e2 with hle | hle
      · exact f64Mag_inj_le h1 h2 he1 he2 hle heq
      · obtain ⟨a, b⟩ := f64Mag_inj_le h2 h1 he2 he1 hle heq.symm
        exact ⟨a.symm, b.symm⟩

/-- IEEE-754 `==` on 64-bit patterns coincides with bit-pattern equality
except at signed zeros (`+0.0 == -0.0` across distinct patterns) and NaN
(never equal, even to the same pattern). -/
lemma f64Beq_iff {x y : ℕ} (hx : x < 2 ^ 64) (hy : y < 2 ^ 64) :
    f64Beq x y = true ↔
      (f64IsNaNBits x = false ∧ f64IsNaNBits y = false ∧
        (x = y ∨ (f64IsZeroBits x = true ∧ f64IsZeroBits y = true))) := by
  simp only [f64Beq, f64Interp, f64IsNaNBits, f64IsZeroBits, Bool.and_eq_false_iff,
    beq_eq_false_iff_ne, ne_eq, bne_eq_false_iff_eq, beq_iff_eq]
  set sx := x / 2 ^ 63 % 2 with hsx
  set ex := x / 2 ^ 52 % 2 ^ 11 with hex
  set mx := x % 2 ^ 52 with hmx
  set sy := y / 2 ^ 63 % 2 with hsy
  set ey := y / 2 ^ 52 % 2 ^ 11 with hey
  set my := y % 2 ^ 52 with hmy
  have hxd : x = sx * 2 ^ 63 + ex * 2 ^ 52 + mx := by
    rw [hsx, hex, hmx]; omega
  have hyd : y = sy * 2 ^ 63 + ey * 2 ^ 52 + my := by
    rw [hsy, hey, hmy]; omega
  have hsx2 : sx < 2 := by rw [hsx]; omega
  have hex2 : ex < 2 ^ 11 := by rw [hex]; omega
  have hmx2 : mx < 2 ^ 52 := by rw [hmx]; omega
  have hsy2 : sy < 2 := by rw [hsy]; omega
  have hey2 : ey < 2 ^ 11 := by rw [hey]; omega
  have hmy2 : my < 2 ^ 52 := by rw [hmy]; omega
  have hzx : x % 2 ^ 63 = ex * 2 ^ 52 + mx := by omega
  have hzy : y % 2 ^ 63 = ey * 2 ^ 52 + my := by omega
  clear_value sx ex mx sy ey my
  clear hsx hex hmx hsy hey hmy hx hy
  by_cases h47x : ex = 2047 <;> by_cases h47y : ey = 2047
  · by_cases hmx0 : mx = 0 <;> by_cases hmy0 : my = 0 <;>
      by_cases hsx1 : sx = 1 <;> by_cases hsy1 : sy = 1 <;>
      simp [h47x, h47y, hmx0, hmy0, hsx1, hsy1] <;> omega
  · by_cases hmx0 : mx = 0 <;> by_cases hsx1 : sx = 1 <;>
      simp [h47x, h47y, hmx0, hsx1] <;> omega
  · by_cases hmy0 : my = 0 <;> by_cases hsy1 : sy = 1 <;>
      simp [h47x, h47y, hmy0, hsy1] <;> omega
  · have hinj : f64Mag ex mx = f64Mag ey my →
        ((ex = ey ∧ mx = my) ∨ (ex = 0 ∧ mx = 0 ∧ ey = 0 ∧ my = 0)) :=
      f64Mag_inj hmx2 hmy2
    have hX0 : f64Mag ex mx = 0 ↔ ex = 0 ∧ mx = 0 := f64Mag_eq_zero_iff
    have hY0 : f64Mag ey my = 0 ↔ ey = 0 ∧ my = 0 := f64Mag_eq_zero_iff
    have hcongr : ex = ey → mx = my → f64Mag ex mx = f64Mag ey my := by
      intro a b; rw [a, b]
    generalize hMX : f64Mag ex mx = MX at hinj hX0 hcongr ⊢
    generalize hMY : f64Mag ey my = MY at hinj hY0 hcongr ⊢
    clear hMX hMY
    by_cases hsx1 : sx = 1 <;> by_cases hsy1 : sy = 1 <;>
      simp [h47x, h47y, hsx1, hsy1] <;> omega

/-- C4 counterexample: the bit patterns of `+0.0` (all zeros) and `-0.0`
(only the sign bit set) give two `Rgb` values that the derived `PartialEq`
considers equal although their `r` channels have different bit patterns, and
whose hash inputs (the `to_bits` of each channel) differ. -/
theorem rgb_eq_not_bitwise :
    RgbBits.beq ⟨0, 0, 0⟩ ⟨2 ^ 63, 0, 0⟩ = true ∧
    (⟨0, 0, 0⟩ : RgbBits) ≠ ⟨2 ^ 63, 0, 0⟩ ∧
    RgbBits.hashInput ⟨0, 0, 0⟩ ≠ RgbBits.hashInput ⟨2 ^ 63, 0, 0⟩ := by
  decide

/-- C4 (amended): `==` on `Rgb` is channelwise IEEE-754 `f64` equality, which
agrees with bit-pattern equality exactly when no channel is NaN and no
channel pair is a mixed-sign zero: two values are equal iff every channel is
non-NaN and has either identical bit patterns or two (possibly
differently-signed) zeros; hashing depends on the channels' bit patterns
alone. -/
theorem rgb_eq_iff_ieee (x y : RgbBits)
    (h1 : x.r < 2 ^ 64) (h2 : x.g < 2 ^ 64) (h3 : x.b < 2 ^ 64)
    (h4 : y.r < 2 ^ 64) (h5 : y.g < 2 ^ 64) (h6 : y.b < 2 ^ 64) :
    (RgbBits.beq x y = true ↔
      ((f64IsNaNBits x.r = false ∧ f64IsNaNBits y.r = false ∧
        (x.r = y.r ∨ (f64IsZeroBits x.r = true ∧ f64IsZeroBits y.r = true))) ∧
       (f64IsNaNBits x.g = false ∧ f64IsNaNBits y.g = false ∧
        (x.g = y.g ∨ (f64IsZeroBits x.g = true ∧ f64IsZeroBits y.g = true))) ∧
       (f64IsNaNBits x.b = false ∧ f64IsNaNBits y.b = false ∧
        (x.b = y.b ∨ (f64IsZeroBits x.b = true ∧ f64IsZeroBits y.b = true))))) ∧
    (RgbBits.hashInput x = RgbBits.hashInput y ↔
      (x.r = y.r ∧ x.g = y.g ∧ x.b = y.b)) := by
  constructor
  · simp only [RgbBits.beq, Bool.and_eq_true]
    rw [f64Beq_iff h1 h4, f64Beq_iff h2 h5, f64Beq_iff h3 h6]
    tauto
  · simp [RgbBits.hashInput, Prod.ext_iff]

/-- C4 witness: the amended equivalence instantiated at the identical bit
triples `(1, 2, 3)`. -/
theorem rgb_eq_iff_ieee_witness :
    (RgbBits.beq ⟨1, 2, 3⟩ ⟨1, 2, 3⟩ = true ↔
      ((f64IsNaNBits 1 = false ∧ f64IsNaNBits 1 = false ∧
        ((1 : ℕ) = 1 ∨ (f64IsZeroBits 1 = true ∧ f64IsZeroBits 1 = true))) ∧
       (f64IsNaNBits 2 = false ∧ f64IsNaNBits 2 = false ∧
        ((2 : ℕ) = 2 ∨ (f64IsZeroBits 2 = true ∧ f64IsZeroBits 2 = true))) ∧
       (f64IsNaNBits 3 = false ∧ f64IsNaNBits 3 = false ∧
        ((3 : ℕ) = 3 ∨ (f64IsZeroBits 3 = true ∧ f64IsZeroBits 3 = true))))) ∧
    (RgbBits.hashInput ⟨1, 2, 3⟩ = RgbBits.hashInput ⟨1, 2, 3⟩ ↔
      ((1 : ℕ) = 1 ∧ (2 : ℕ) = 2 ∧ (3 : ℕ) = 3)) :=
  rgb_eq_iff_ieee ⟨1, 2, 3⟩ ⟨1, 2, 3⟩ (by norm_num) (by norm_num) (by norm_num)
    (by norm_num) (by norm_num) (by norm_num)

end SorbetColor
